import Mathlib

/-!
Shallow embedding of the rtiow-rust path tracer (src/main.rs).

Modelling conventions:
* `f32` values are embedded as exact rationals (`ℚ`); float rounding is not
  modelled, so arithmetic identities hold exactly.
* `f32::sqrt` is abstracted as an explicit function parameter `sq : ℚ → ℚ`
  threaded through every definition that the source computes a square root in.
  All structural theorems are proved for every such `sq`.
* `rand` draws are passed explicitly: a `RandSample` bundles the one
  `in_unit_sphere()` point and the one uniform `gen::<f32>()` value a single
  `scatter` call can consume; the bounce loop receives a stream of them.
* `std::f32::MAX` is the exact rational value of the largest finite `f32`.
-/

namespace RTIOW

/-- Vec3 from the source: a triple of (modelled) f32 components. -/
@[ext]
structure Vec3 where
  x : ℚ
  y : ℚ
  z : ℚ
deriving DecidableEq

instance : Zero Vec3 := ⟨⟨0, 0, 0⟩⟩

instance : Add Vec3 := ⟨fun a b => ⟨a.x + b.x, a.y + b.y, a.z + b.z⟩⟩

instance : Sub Vec3 := ⟨fun a b => ⟨a.x - b.x, a.y - b.y, a.z - b.z⟩⟩

instance : Neg Vec3 := ⟨fun a => ⟨-a.x, -a.y, -a.z⟩⟩

/-- Componentwise product, `impl Mul for Vec3`. -/
instance : Mul Vec3 := ⟨fun a b => ⟨a.x * b.x, a.y * b.y, a.z * b.z⟩⟩

/-- Scalar product, `impl Mul<Vec3> for f32`. -/
instance : HMul ℚ Vec3 Vec3 := ⟨fun k v => ⟨k * v.x, k * v.y, k * v.z⟩⟩

/-- Scalar division, `impl Div<f32> for Vec3`. -/
instance : HDiv Vec3 ℚ Vec3 := ⟨fun v k => ⟨v.x / k, v.y / k, v.z / k⟩⟩

@[simp] theorem Vec3.zero_x : (0 : Vec3).x = 0 := rfl
@[simp] theorem Vec3.zero_y : (0 : Vec3).y = 0 := rfl
@[simp] theorem Vec3.zero_z : (0 : Vec3).z = 0 := rfl
@[simp] theorem Vec3.add_x (a b : Vec3) : (a + b).x = a.x + b.x := rfl
@[simp] theorem Vec3.add_y (a b : Vec3) : (a + b).y = a.y + b.y := rfl
@[simp] theorem Vec3.add_z (a b : Vec3) : (a + b).z = a.z + b.z := rfl
@[simp] theorem Vec3.sub_x (a b : Vec3) : (a - b).x = a.x - b.x := rfl
@[simp] theorem Vec3.sub_y (a b : Vec3) : (a - b).y = a.y - b.y := rfl
@[simp] theorem Vec3.sub_z (a b : Vec3) : (a - b).z = a.z - b.z := rfl
@[simp] theorem Vec3.neg_x (a : Vec3) : (-a).x = -a.x := rfl
@[simp] theorem Vec3.neg_y (a : Vec3) : (-a).y = -a.y := rfl
@[simp] theorem Vec3.neg_z (a : Vec3) : (-a).z = -a.z := rfl
@[simp] theorem Vec3.mul_x (a b : Vec3) : (a * b).x = a.x * b.x := rfl
@[simp] theorem Vec3.mul_y (a b : Vec3) : (a * b).y = a.y * b.y := rfl
@[simp] theorem Vec3.mul_z (a b : Vec3) : (a * b).z = a.z * b.z := rfl
@[simp] theorem Vec3.smul_x (k : ℚ) (v : Vec3) : (k * v).x = k * v.x := rfl
@[simp] theorem Vec3.smul_y (k : ℚ) (v : Vec3) : (k * v).y = k * v.y := rfl
@[simp] theorem Vec3.smul_z (k : ℚ) (v : Vec3) : (k * v).z = k * v.z := rfl
@[simp] theorem Vec3.div_x (v : Vec3) (k : ℚ) : (v / k).x = v.x / k := rfl
@[simp] theorem Vec3.div_y (v : Vec3) (k : ℚ) : (v / k).y = v.y / k := rfl
@[simp] theorem Vec3.div_z (v : Vec3) (k : ℚ) : (v / k).z = v.z / k := rfl

/-- Dot product, `Vec3::dot`. -/
def Vec3.dot (a b : Vec3) : ℚ :=
  a.x * b.x + a.y * b.y + a.z * b.z

/-- Cross product, `Vec3::cross`. -/
def Vec3.cross (a b : Vec3) : Vec3 :=
  ⟨a.y * b.z - a.z * b.y, -(a.x * b.z - a.z * b.x), a.x * b.y - a.y * b.x⟩

/-- Length, `Vec3::length` = `sqrt(dot(self, self))`, with the abstract sqrt. -/
def Vec3.length (sq : ℚ → ℚ) (v : Vec3) : ℚ :=
  sq (v.dot v)

/-- Normalization, `Vec3::into_unit` = `self / self.length()`. -/
def Vec3.intoUnit (sq : ℚ → ℚ) (v : Vec3) : Vec3 :=
  v / v.length sq

/-- Mirror reflection, free function `reflect`. -/
def reflect (v n : Vec3) : Vec3 :=
  v - (2 * v.dot n) * n

/-- Refraction, free function `refract`; `none` models total internal
reflection. -/
def refract (sq : ℚ → ℚ) (v n : Vec3) (niOverNt : ℚ) : Option Vec3 :=
  let uv := v.intoUnit sq
  let dt := uv.dot n
  let discriminant := 1 - niOverNt * niOverNt * (1 - dt * dt)
  if discriminant > 0 then
    some (niOverNt * (uv - dt * n) - sq discriminant * n)
  else
    none

/-- Ray from the source: origin and (not necessarily unit) direction. -/
structure Ray where
  origin : Vec3
  direction : Vec3
deriving DecidableEq

/-- Parametrized point, `Ray::point_at_parameter`. -/
def Ray.pointAtParameter (r : Ray) (t : ℚ) : Vec3 :=
  r.origin + t * r.direction

/-- The closed set of materials of the program, as a sum type (the source uses
trait objects `Arc<dyn Material>` over exactly these three implementations). -/
inductive Material where
  | lambertian (albedo : Vec3)
  | metal (albedo : Vec3) (fuzz : ℚ)
  | dielectric (refIdx : ℚ)
deriving DecidableEq

/-- HitRecord from the source. -/
structure HitRecord where
  t : ℚ
  p : Vec3
  normal : Vec3
  material : Material
deriving DecidableEq

/-- Sphere from the source. -/
structure Sphere where
  center : Vec3
  radius : ℚ
  material : Material
deriving DecidableEq

/-- The record built at an accepted root inside `impl Object for Sphere::hit`. -/
def Sphere.mkRec (s : Sphere) (ray : Ray) (t : ℚ) : HitRecord :=
  let p := ray.pointAtParameter t
  ⟨t, p, (p - s.center) / s.radius, s.material⟩

/-- The local `oc` of `Sphere::hit`: `ray.origin - self.center`. -/
def sphereOC (s : Sphere) (ray : Ray) : Vec3 :=
  ray.origin - s.center

/-- The local `a` of `Sphere::hit`: `dot(direction, direction)`. -/
def sphereA (ray : Ray) : ℚ :=
  ray.direction.dot ray.direction

/-- The local `b` of `Sphere::hit`: `dot(oc, direction)`. -/
def sphereB (s : Sphere) (ray : Ray) : ℚ :=
  (sphereOC s ray).dot ray.direction

/-- The local `c` of `Sphere::hit`: `dot(oc, oc) - radius * radius`. -/
def sphereC (s : Sphere) (ray : Ray) : ℚ :=
  (sphereOC s ray).dot (sphereOC s ray) - s.radius * s.radius

/-- The local `discriminant` of `Sphere::hit`: `b * b - a * c`. -/
def sphereDisc (s : Sphere) (ray : Ray) : ℚ :=
  sphereB s ray * sphereB s ray - sphereA ray * sphereC s ray

/-- First root tried by `Sphere::hit`: `(-b - sqrt(discriminant)) / a`. -/
def sphereRoot1 (sq : ℚ → ℚ) (s : Sphere) (ray : Ray) : ℚ :=
  (-sphereB s ray - sq (sphereDisc s ray)) / sphereA ray

/-- Second root tried by `Sphere::hit`: `(-b + sqrt(discriminant)) / a`. -/
def sphereRoot2 (sq : ℚ → ℚ) (s : Sphere) (ray : Ray) : ℚ :=
  (-sphereB s ray + sq (sphereDisc s ray)) / sphereA ray

/-- Sphere intersection, `impl Object for Sphere::hit`.  The source's loop over
the two-element root array `[t1, t2]` is unrolled into the two nested
conditionals, keeping the source's acceptance test
`t < t_range.end && t >= t_range.start` in that order. -/
def Sphere.hit (sq : ℚ → ℚ) (s : Sphere) (ray : Ray) (tmin tmax : ℚ) :
    Option HitRecord :=
  if sphereDisc s ray > 0 then
    if sphereRoot1 sq s ray < tmax ∧ sphereRoot1 sq s ray ≥ tmin then
      some (s.mkRec ray (sphereRoot1 sq s ray))
    else if sphereRoot2 sq s ray < tmax ∧ sphereRoot2 sq s ray ≥ tmin then
      some (s.mkRec ray (sphereRoot2 sq s ray))
    else none
  else
    none

/-- One step of the fold inside `impl<T> Object for [T]::hit`. -/
def hitFoldStep (sq : ℚ → ℚ) (ray : Ray) (tmin tmax : ℚ)
    (hit : Option HitRecord) (obj : Sphere) : Option HitRecord :=
  match obj.hit sq ray tmin tmax with
  | some rec =>
      let hitT := match hit with
        | some h => h.t
        | none => tmax
      if rec.t < hitT then some rec else hit
  | none => hit

/-- Scene-level hit test, `impl<T> Object for [T]::hit`: a left fold over the
primitive sequence starting from `None`. -/
def worldHit (sq : ℚ → ℚ) (world : List Sphere) (ray : Ray)
    (tmin tmax : ℚ) : Option HitRecord :=
  world.foldl (hitFoldStep sq ray tmin tmax) none

/-- Schlick Fresnel approximation, free function `schlick`. -/
def schlick (cos refIdx : ℚ) : ℚ :=
  let r0 := (1 - refIdx) / (1 + refIdx)
  let r0 := r0 * r0
  r0 + (1 - r0) * (1 - cos) ^ (5 : ℕ)

/-- The randomness one `scatter` call can consume: the result of its (single)
`in_unit_sphere()` call and of its (single) uniform `gen::<f32>()` draw. -/
structure RandSample where
  usphere : Vec3
  uniform : ℚ
deriving DecidableEq

/-- The tuple `(outward_normal, ni_over_nt, cosine)` computed by the sign test
at the top of `impl Material for Dielectric::scatter`. -/
def dielectricParams (sq : ℚ → ℚ) (refIdx : ℚ) (ray : Ray)
    (hit : HitRecord) : Vec3 × ℚ × ℚ :=
  if ray.direction.dot hit.normal > 0 then
    (-hit.normal, refIdx,
      refIdx * ray.direction.dot hit.normal / ray.direction.length sq)
  else
    (hit.normal, 1 / refIdx,
      -(ray.direction.dot hit.normal) / ray.direction.length sq)

/-- Material dispatch of `scatter`, covering the three `impl Material` blocks of
the source; `none` models absorption. -/
def scatter (sq : ℚ → ℚ) (rnd : RandSample) (m : Material) (ray : Ray)
    (hit : HitRecord) : Option (Ray × Vec3) :=
  match m with
  | .lambertian albedo =>
      let target := hit.p + hit.normal + rnd.usphere
      some (⟨hit.p, target - hit.p⟩, albedo)
  | .metal albedo fuzz =>
      let scattered : Ray :=
        ⟨hit.p, reflect (ray.direction.intoUnit sq) hit.normal
          + fuzz * rnd.usphere⟩
      if scattered.direction.dot hit.normal > 0 then
        some (scattered, albedo)
      else
        none
  | .dielectric refIdx =>
      let prm := dielectricParams sq refIdx ray hit
      let direction :=
        match refract sq ray.direction prm.1 prm.2.1 with
        | some refr =>
            if rnd.uniform ≥ schlick prm.2.2 refIdx then refr
            else reflect ray.direction hit.normal
        | none => reflect ray.direction hit.normal
      some (⟨hit.p, direction⟩, (⟨1, 1, 1⟩ : Vec3))

/-- Exact rational value of `std::f32::MAX`. -/
def f32MAX : ℚ := 2 ^ (128 : ℕ) - 2 ^ (104 : ℕ)

/-- The sky gradient computed after the loop of `color`. -/
def skyColor (sq : ℚ → ℚ) (ray : Ray) : Vec3 :=
  let unitDirection := ray.direction.intoUnit sq
  let t := (1 / 2 : ℚ) * (unitDirection.y + 1)
  (1 - t) * (⟨1, 1, 1⟩ : Vec3) + t * (⟨1 / 2, 7 / 10, 1⟩ : Vec3)

/-- The `while let` loop of `color`, at a general loop state
`(ray, strength, bounces)`; `rnds` is the stream of per-iteration random
draws, indexed by the bounce counter. -/
def colorLoop (sq : ℚ → ℚ) (world : List Sphere) (rnds : ℕ → RandSample)
    (ray : Ray) (strength : Vec3) (bounces : ℕ) : Vec3 :=
  match worldHit sq world ray (1 / 1000) f32MAX with
  | none => strength * skyColor sq ray
  | some hit =>
      if hb : bounces < 50 then
        match scatter sq (rnds bounces) hit.material ray hit with
        | some (newRay, attenuation) =>
            colorLoop sq world rnds newRay (strength * attenuation)
              (bounces + 1)
        | none => 0
      else 0
termination_by 50 - bounces
decreasing_by omega

/-- The path integrator `color`: the loop started at strength white and zero
bounces. -/
def color (sq : ℚ → ℚ) (world : List Sphere) (rnds : ℕ → RandSample)
    (ray : Ray) : Vec3 :=
  colorLoop sq world rnds ray ⟨1, 1, 1⟩ 0

/-- Loop state of `color`: current ray, accumulated strength, bounce count. -/
structure LoopState where
  ray : Ray
  strength : Vec3
  bounces : ℕ
deriving DecidableEq

/-- One iteration of the `color` loop as a small-step function: `inl` is the
single non-terminal transition (successful scatter), `inr` a final value. -/
def loopStep (sq : ℚ → ℚ) (world : List Sphere) (rnds : ℕ → RandSample)
    (s : LoopState) : LoopState ⊕ Vec3 :=
  match worldHit sq world s.ray (1 / 1000) f32MAX with
  | none => Sum.inr (s.strength * skyColor sq s.ray)
  | some hit =>
      if s.bounces < 50 then
        match scatter sq (rnds s.bounces) hit.material s.ray hit with
        | some (newRay, attenuation) =>
            Sum.inl ⟨newRay, s.strength * attenuation, s.bounces + 1⟩
        | none => Sum.inr 0
      else Sum.inr 0

/-- Run the small-step loop for at most `n` iterations; `none` means the fuel
ran out before the loop terminated. -/
def runLoop (sq : ℚ → ℚ) (world : List Sphere) (rnds : ℕ → RandSample) :
    ℕ → LoopState → Option Vec3
  | 0, _ => none
  | n + 1, s =>
      match loopStep sq world rnds s with
      | Sum.inr v => some v
      | Sum.inl s' => runLoop sq world rnds n s'

/-- The grid built by `Image::compute`: rayon's ordered collect over
`(0..ny).rev()`, each row mapping `x` over `0..nx`. -/
def imageCompute (nx ny : ℕ) (f : ℕ → ℕ → Vec3) : List (List Vec3) :=
  ((List.range ny).reverse).map fun y => (List.range nx).map fun x => f x y

/-- Truncation toward zero, the behaviour of Rust `as i32` on an in-range
value. -/
def ratTrunc (q : ℚ) : ℤ :=
  if 0 ≤ q then ⌊q⌋ else ⌈q⌉

/-- Saturating float-to-i32 cast, Rust `as i32`. -/
def ratAsI32 (q : ℚ) : ℤ :=
  max (-(2 ^ (31 : ℕ))) (min (2 ^ (31 : ℕ) - 1) (ratTrunc q))

/-- Per-channel quantization done in `print_ppm`:
`(255.99 * channel.sqrt()) as i32`. -/
def gammaQuantize (sq : ℚ → ℚ) (c : ℚ) : ℤ :=
  ratAsI32 ((25599 / 100 : ℚ) * sq c)

/-- The integer triple `print_ppm` emits for one pixel. -/
def ppmPixel (sq : ℚ → ℚ) (v : Vec3) : ℤ × ℤ × ℤ :=
  (gammaQuantize sq v.x, gammaQuantize sq v.y, gammaQuantize sq v.z)

/-- Concrete instantiation of the abstract square-root parameter used by the
witnesses: correct on the few perfect squares the witness inputs reach. -/
def sqDemo (q : ℚ) : ℚ :=
  if q = 9 / 16 then 3 / 4 else if q = 1 then 1 else 0

theorem Vec3.add_def (a b : Vec3) : a + b = ⟨a.x + b.x, a.y + b.y, a.z + b.z⟩ := rfl

theorem Vec3.sub_def (a b : Vec3) : a - b = ⟨a.x - b.x, a.y - b.y, a.z - b.z⟩ := rfl

theorem Vec3.neg_def (a : Vec3) : -a = ⟨-a.x, -a.y, -a.z⟩ := rfl

theorem Vec3.mul_def (a b : Vec3) : a * b = ⟨a.x * b.x, a.y * b.y, a.z * b.z⟩ := rfl

theorem Vec3.smul_def (k : ℚ) (v : Vec3) : k * v = ⟨k * v.x, k * v.y, k * v.z⟩ := rfl

theorem Vec3.div_def (v : Vec3) (k : ℚ) : v / k = ⟨v.x / k, v.y / k, v.z / k⟩ := rfl

theorem Vec3.zero_def : (0 : Vec3) = ⟨0, 0, 0⟩ := rfl

/-- C6: the Lambertian `scatter` always returns a result; the attenuation is
exactly the albedo, and the returned ray starts at `hit.p` with direction
`hit.normal + random-in-unit-sphere point` (the source computes it as
`(hit.p + hit.normal + rnd) - hit.p`, which is the same vector exactly). -/
theorem lambertian_scatter_spec (sq : ℚ → ℚ) (rnd : RandSample) (albedo : Vec3)
    (ray : Ray) (hit : HitRecord) :
    scatter sq rnd (.lambertian albedo) ray hit =
      some (⟨hit.p, hit.normal + rnd.usphere⟩, albedo) := by
  have hdir : hit.p + hit.normal + rnd.usphere - hit.p =
      hit.normal + rnd.usphere := by
    ext <;> simp <;> ring
  simp [scatter, hdir]

/-- C7: `refract` returns `none` exactly when the discriminant
`1 - k^2 * (1 - dot(unit v, n)^2)` is nonpositive, and otherwise returns the
refracted vector `k * (uv - dt * n) - sqrt(disc) * n`. -/
theorem refract_spec (sq : ℚ → ℚ) (v n : Vec3) (k : ℚ) :
    (refract sq v n k = none ↔
      1 - k * k * (1 - (v.intoUnit sq).dot n * ((v.intoUnit sq).dot n)) ≤ 0) ∧
    (0 < 1 - k * k * (1 - (v.intoUnit sq).dot n * ((v.intoUnit sq).dot n)) →
      refract sq v n k =
        some (k * (v.intoUnit sq - (v.intoUnit sq).dot n * n) -
          sq (1 - k * k * (1 - (v.intoUnit sq).dot n * ((v.intoUnit sq).dot n)))
            * n)) := by
  constructor
  · simp only [refract]
    split
    · rename_i hpos
      simp only [reduceCtorEq, false_iff, not_le]
      exact hpos
    · rename_i hneg
      simp only [true_iff]
      exact le_of_not_lt hneg
  · intro hpos
    simp only [refract]
    rw [if_pos hpos]

/-- Witness for C7 at a concrete refracting configuration. -/
theorem refract_spec_witness :
    0 < 1 - (1 / 2 : ℚ) * (1 / 2) *
        (1 - (Vec3.intoUnit sqDemo ⟨0, 0, 1⟩).dot ⟨0, 0, -1⟩ *
          ((Vec3.intoUnit sqDemo ⟨0, 0, 1⟩).dot ⟨0, 0, -1⟩)) ∧
      refract sqDemo ⟨0, 0, 1⟩ ⟨0, 0, -1⟩ (1 / 2) =
        some ((1 / 2 : ℚ) * (Vec3.intoUnit sqDemo ⟨0, 0, 1⟩ -
            (Vec3.intoUnit sqDemo ⟨0, 0, 1⟩).dot ⟨0, 0, -1⟩ * (⟨0, 0, -1⟩ : Vec3)) -
          sqDemo (1 - (1 / 2 : ℚ) * (1 / 2) *
            (1 - (Vec3.intoUnit sqDemo ⟨0, 0, 1⟩).dot ⟨0, 0, -1⟩ *
              ((Vec3.intoUnit sqDemo ⟨0, 0, 1⟩).dot ⟨0, 0, -1⟩)))
            * (⟨0, 0, -1⟩ : Vec3)) :=
  ⟨by norm_num [Vec3.intoUnit, Vec3.length, Vec3.dot, sqDemo],
    (refract_spec sqDemo ⟨0, 0, 1⟩ ⟨0, 0, -1⟩ (1 / 2)).2
      (by norm_num [Vec3.intoUnit, Vec3.length, Vec3.dot, sqDemo])⟩

/-- C5: the metal `scatter` forms the direction
`reflect(unit(incoming), normal) + fuzz * random-in-unit-sphere`, returns
`(ray from hit.p with that direction, albedo)` exactly when the direction has
positive dot with the normal, absorbs (returns `none`) otherwise, and with
`fuzz = 0` the direction is exactly the mirror reflection, independent of the
random draw. -/
theorem metal_scatter_spec (sq : ℚ → ℚ) (rnd : RandSample) (albedo : Vec3)
    (fuzz : ℚ) (ray : Ray) (hit : HitRecord) :
    (0 < (reflect (ray.direction.intoUnit sq) hit.normal
        + fuzz * rnd.usphere).dot hit.normal →
      scatter sq rnd (.metal albedo fuzz) ray hit =
        some (⟨hit.p, reflect (ray.direction.intoUnit sq) hit.normal
          + fuzz * rnd.usphere⟩, albedo)) ∧
    ((reflect (ray.direction.intoUnit sq) hit.normal
        + fuzz * rnd.usphere).dot hit.normal ≤ 0 →
      scatter sq rnd (.metal albedo fuzz) ray hit = none) ∧
    (fuzz = 0 →
      reflect (ray.direction.intoUnit sq) hit.normal + fuzz * rnd.usphere =
        reflect (ray.direction.intoUnit sq) hit.normal) := by
  refine ⟨?_, ?_, ?_⟩
  · intro hpos
    simp only [scatter]
    rw [if_pos hpos]
  · intro hnonpos
    simp only [scatter]
    rw [if_neg (by exact not_lt.mpr hnonpos)]
  · intro hfuzz
    subst hfuzz
    ext <;> simp

/-- Witness for C5: a concrete scattering case (fuzz 0), a concrete absorption
case (a fuzzed reflection pointing into the surface), and the zero-fuzz
determinism, all on a hit record produced by the geometry of a unit sphere at
`(0,0,2)` hit by the ray from the origin along `+z`. -/
theorem metal_scatter_spec_witness :
    (scatter sqDemo ⟨⟨0, 0, 9 / 10⟩, 0⟩ (.metal ⟨1, 0, 0⟩ 0)
        ⟨⟨0, 0, 0⟩, ⟨0, 0, 1⟩⟩ ⟨1, ⟨0, 0, 1⟩, ⟨0, 0, -1⟩, .metal ⟨1, 0, 0⟩ 0⟩ =
      some (⟨⟨0, 0, 1⟩,
        reflect (Vec3.intoUnit sqDemo ⟨0, 0, 1⟩) ⟨0, 0, -1⟩
          + (0 : ℚ) * (⟨0, 0, 9 / 10⟩ : Vec3)⟩, ⟨1, 0, 0⟩)) ∧
    (scatter sqDemo ⟨⟨0, 0, 9 / 10⟩, 0⟩ (.metal ⟨1, 0, 0⟩ 2)
        ⟨⟨0, 0, 0⟩, ⟨0, 0, 1⟩⟩ ⟨1, ⟨0, 0, 1⟩, ⟨0, 0, -1⟩, .metal ⟨1, 0, 0⟩ 2⟩ =
      none) ∧
    reflect (Vec3.intoUnit sqDemo ⟨0, 0, 1⟩) ⟨0, 0, -1⟩
        + (0 : ℚ) * (⟨0, 0, 9 / 10⟩ : Vec3) =
      reflect (Vec3.intoUnit sqDemo ⟨0, 0, 1⟩) ⟨0, 0, -1⟩ :=
  ⟨(metal_scatter_spec sqDemo ⟨⟨0, 0, 9 / 10⟩, 0⟩ ⟨1, 0, 0⟩ 0
      ⟨⟨0, 0, 0⟩, ⟨0, 0, 1⟩⟩ ⟨1, ⟨0, 0, 1⟩, ⟨0, 0, -1⟩, .metal ⟨1, 0, 0⟩ 0⟩).1
      (by norm_num [reflect, Vec3.intoUnit, Vec3.length, Vec3.dot, sqDemo]),
    (metal_scatter_spec sqDemo ⟨⟨0, 0, 9 / 10⟩, 0⟩ ⟨1, 0, 0⟩ 2
      ⟨⟨0, 0, 0⟩, ⟨0, 0, 1⟩⟩ ⟨1, ⟨0, 0, 1⟩, ⟨0, 0, -1⟩, .metal ⟨1, 0, 0⟩ 2⟩).2.1
      (by norm_num [reflect, Vec3.intoUnit, Vec3.length, Vec3.dot, sqDemo]),
    (metal_scatter_spec sqDemo ⟨⟨0, 0, 9 / 10⟩, 0⟩ ⟨1, 0, 0⟩ 0
      ⟨⟨0, 0, 0⟩, ⟨0, 0, 1⟩⟩ ⟨1, ⟨0, 0, 1⟩, ⟨0, 0, -1⟩, .metal ⟨1, 0, 0⟩ 0⟩).2.2
      rfl⟩

/-- C3: the sphere intersection test returns no hit when the half-discriminant
`b*b - a*c` is nonpositive; otherwise it tries the roots
`(-b - sqrt(disc))/a` then `(-b + sqrt(disc))/a` in that order, accepts the
first one in `[t_min, t_max)`, and returns the record with that `t`,
`point = origin + t*direction` and `normal = (point - center)/radius`; if
neither root is in the interval it returns no hit. -/
theorem sphere_hit_spec (sq : ℚ → ℚ) (s : Sphere) (ray : Ray) (tmin tmax : ℚ) :
    (sphereDisc s ray ≤ 0 → s.hit sq ray tmin tmax = none) ∧
    (0 < sphereDisc s ray → sphereRoot1 sq s ray ≥ tmin →
      sphereRoot1 sq s ray < tmax →
      s.hit sq ray tmin tmax = some ⟨sphereRoot1 sq s ray,
        ray.origin + sphereRoot1 sq s ray * ray.direction,
        (ray.origin + sphereRoot1 sq s ray * ray.direction - s.center)
          / s.radius, s.material⟩) ∧
    (0 < sphereDisc s ray →
      ¬(sphereRoot1 sq s ray < tmax ∧ sphereRoot1 sq s ray ≥ tmin) →
      sphereRoot2 sq s ray ≥ tmin → sphereRoot2 sq s ray < tmax →
      s.hit sq ray tmin tmax = some ⟨sphereRoot2 sq s ray,
        ray.origin + sphereRoot2 sq s ray * ray.direction,
        (ray.origin + sphereRoot2 sq s ray * ray.direction - s.center)
          / s.radius, s.material⟩) ∧
    (0 < sphereDisc s ray →
      ¬(sphereRoot1 sq s ray < tmax ∧ sphereRoot1 sq s ray ≥ tmin) →
      ¬(sphereRoot2 sq s ray < tmax ∧ sphereRoot2 sq s ray ≥ tmin) →
      s.hit sq ray tmin tmax = none) := by
  refine ⟨?_, ?_, ?_, ?_⟩
  · intro hd
    rw [Sphere.hit, if_neg (not_lt.mpr hd)]
  · intro hd h1 h2
    rw [Sphere.hit, if_pos hd, if_pos ⟨h2, h1⟩]
    rfl
  · intro hd hn1 h1 h2
    rw [Sphere.hit, if_pos hd, if_neg hn1, if_pos ⟨h2, h1⟩]
    rfl
  · intro hd hn1 hn2
    rw [Sphere.hit, if_pos hd, if_neg hn1, if_neg hn2]

/-- Witness for C3: a miss (nonpositive discriminant) and a first-root hit on
a unit sphere at `(0,0,3)` aimed at from the origin. -/
theorem sphere_hit_spec_witness :
    (sphereDisc ⟨⟨0, 0, 3⟩, 1, .lambertian ⟨1, 1, 1⟩⟩ ⟨⟨0, 0, 0⟩, ⟨0, 1, 0⟩⟩ ≤ 0) ∧
    Sphere.hit sqDemo ⟨⟨0, 0, 3⟩, 1, .lambertian ⟨1, 1, 1⟩⟩
      ⟨⟨0, 0, 0⟩, ⟨0, 1, 0⟩⟩ 0 10 = none ∧
    (0 < sphereDisc ⟨⟨0, 0, 3⟩, 1, .lambertian ⟨1, 1, 1⟩⟩ ⟨⟨0, 0, 0⟩, ⟨0, 0, 1⟩⟩) ∧
    Sphere.hit sqDemo ⟨⟨0, 0, 3⟩, 1, .lambertian ⟨1, 1, 1⟩⟩
      ⟨⟨0, 0, 0⟩, ⟨0, 0, 1⟩⟩ 0 10 =
      some ⟨sphereRoot1 sqDemo ⟨⟨0, 0, 3⟩, 1, .lambertian ⟨1, 1, 1⟩⟩
          ⟨⟨0, 0, 0⟩, ⟨0, 0, 1⟩⟩,
        (⟨⟨0, 0, 0⟩, ⟨0, 0, 1⟩⟩ : Ray).origin +
          sphereRoot1 sqDemo ⟨⟨0, 0, 3⟩, 1, .lambertian ⟨1, 1, 1⟩⟩
            ⟨⟨0, 0, 0⟩, ⟨0, 0, 1⟩⟩ * (⟨⟨0, 0, 0⟩, ⟨0, 0, 1⟩⟩ : Ray).direction,
        ((⟨⟨0, 0, 0⟩, ⟨0, 0, 1⟩⟩ : Ray).origin +
          sphereRoot1 sqDemo ⟨⟨0, 0, 3⟩, 1, .lambertian ⟨1, 1, 1⟩⟩
            ⟨⟨0, 0, 0⟩, ⟨0, 0, 1⟩⟩ * (⟨⟨0, 0, 0⟩, ⟨0, 0, 1⟩⟩ : Ray).direction
          - (⟨0, 0, 3⟩ : Vec3)) / (1 : ℚ),
        .lambertian ⟨1, 1, 1⟩⟩ :=
  ⟨by norm_num [sphereDisc, sphereA, sphereB, sphereC, sphereOC, Vec3.dot],
    (sphere_hit_spec sqDemo ⟨⟨0, 0, 3⟩, 1, .lambertian ⟨1, 1, 1⟩⟩
        ⟨⟨0, 0, 0⟩, ⟨0, 1, 0⟩⟩ 0 10).1
      (by norm_num [sphereDisc, sphereA, sphereB, sphereC, sphereOC, Vec3.dot]),
    by norm_num [sphereDisc, sphereA, sphereB, sphereC, sphereOC, Vec3.dot],
    (sphere_hit_spec sqDemo ⟨⟨0, 0, 3⟩, 1, .lambertian ⟨1, 1, 1⟩⟩
        ⟨⟨0, 0, 0⟩, ⟨0, 0, 1⟩⟩ 0 10).2.1
      (by norm_num [sphereDisc, sphereA, sphereB, sphereC, sphereOC, Vec3.dot])
      (by norm_num [sphereRoot1, sphereDisc, sphereA, sphereB, sphereC,
        sphereOC, Vec3.dot, sqDemo])
      (by norm_num [sphereRoot1, sphereDisc, sphereA, sphereB, sphereC,
        sphereOC, Vec3.dot, sqDemo])⟩

/-- C4: the dielectric `scatter` always returns a result with attenuation
opaque white `(1,1,1)` and a ray from `hit.p`; the outward normal, ratio and
cosine come from the sign test `dot(direction, normal) > 0`; the direction is
the refracted vector when `refract` succeeds and the uniform draw is at least
`schlick(cosine, ref_idx)`, and the mirror reflection
`reflect(direction, hit.normal)` otherwise; `schlick` is the Fresnel
approximation `r0 + (1-r0)*(1-c)^5` with `r0 = ((1-n)/(1+n))^2`. -/
theorem dielectric_scatter_spec (sq : ℚ → ℚ) (rnd : RandSample) (refIdx : ℚ)
    (ray : Ray) (hit : HitRecord) :
    (dielectricParams sq refIdx ray hit =
      if ray.direction.dot hit.normal > 0 then
        (-hit.normal, refIdx,
          refIdx * ray.direction.dot hit.normal / ray.direction.length sq)
      else
        (hit.normal, 1 / refIdx,
          -(ray.direction.dot hit.normal) / ray.direction.length sq)) ∧
    (∀ c n : ℚ, schlick c n = ((1 - n) / (1 + n)) ^ (2 : ℕ)
      + (1 - ((1 - n) / (1 + n)) ^ (2 : ℕ)) * (1 - c) ^ (5 : ℕ)) ∧
    (∀ refr, refract sq ray.direction (dielectricParams sq refIdx ray hit).1
        (dielectricParams sq refIdx ray hit).2.1 = some refr →
      rnd.uniform ≥ schlick (dielectricParams sq refIdx ray hit).2.2 refIdx →
      scatter sq rnd (.dielectric refIdx) ray hit =
        some (⟨hit.p, refr⟩, ⟨1, 1, 1⟩)) ∧
    (∀ refr, refract sq ray.direction (dielectricParams sq refIdx ray hit).1
        (dielectricParams sq refIdx ray hit).2.1 = some refr →
      rnd.uniform < schlick (dielectricParams sq refIdx ray hit).2.2 refIdx →
      scatter sq rnd (.dielectric refIdx) ray hit =
        some (⟨hit.p, reflect ray.direction hit.normal⟩, ⟨1, 1, 1⟩)) ∧
    (refract sq ray.direction (dielectricParams sq refIdx ray hit).1
        (dielectricParams sq refIdx ray hit).2.1 = none →
      scatter sq rnd (.dielectric refIdx) ray hit =
        some (⟨hit.p, reflect ray.direction hit.normal⟩, ⟨1, 1, 1⟩)) := by
  refine ⟨rfl, ?_, ?_, ?_, ?_⟩
  · intro c n
    simp only [schlick]
    ring
  · intro refr h1 h2
    simp only [scatter]
    rw [h1]
    simp [h2]
  · intro refr h1 h2
    have hx : ¬(rnd.uniform ≥
        schlick (dielectricParams sq refIdx ray hit).2.2 refIdx) :=
      not_le.mpr h2
    simp only [scatter]
    rw [h1]
    simp [hx]
  · intro h1
    simp only [scatter]
    rw [h1]

/-- Witness for C4: on a glass sphere surface normal `(0,0,-1)` hit head-on,
refraction is taken with a uniform draw of 1/2 (schlick value 1/4), mirror
reflection is taken with a draw of 0, and a ray exiting at grazing angle
undergoes total internal reflection. -/
theorem dielectric_scatter_spec_witness :
    (refract sqDemo (⟨⟨0, 0, 0⟩, ⟨0, 0, 1⟩⟩ : Ray).direction
        (dielectricParams sqDemo 3 ⟨⟨0, 0, 0⟩, ⟨0, 0, 1⟩⟩
          ⟨1, ⟨0, 0, 1⟩, ⟨0, 0, -1⟩, .dielectric 3⟩).1
        (dielectricParams sqDemo 3 ⟨⟨0, 0, 0⟩, ⟨0, 0, 1⟩⟩
          ⟨1, ⟨0, 0, 1⟩, ⟨0, 0, -1⟩, .dielectric 3⟩).2.1 =
      some ⟨0, 0, 1⟩) ∧
    scatter sqDemo ⟨⟨0, 0, 0⟩, 1 / 2⟩ (.dielectric 3)
      ⟨⟨0, 0, 0⟩, ⟨0, 0, 1⟩⟩ ⟨1, ⟨0, 0, 1⟩, ⟨0, 0, -1⟩, .dielectric 3⟩ =
      some (⟨⟨0, 0, 1⟩, ⟨0, 0, 1⟩⟩, ⟨1, 1, 1⟩) ∧
    scatter sqDemo ⟨⟨0, 0, 0⟩, 0⟩ (.dielectric 3)
      ⟨⟨0, 0, 0⟩, ⟨0, 0, 1⟩⟩ ⟨1, ⟨0, 0, 1⟩, ⟨0, 0, -1⟩, .dielectric 3⟩ =
      some (⟨⟨0, 0, 1⟩,
        reflect (⟨⟨0, 0, 0⟩, ⟨0, 0, 1⟩⟩ : Ray).direction ⟨0, 0, -1⟩⟩,
        ⟨1, 1, 1⟩) ∧
    scatter sqDemo ⟨⟨0, 0, 0⟩, 0⟩ (.dielectric 3)
      ⟨⟨0, 0, 0⟩, ⟨3 / 5, 0, 4 / 5⟩⟩ ⟨1, ⟨0, 0, 1⟩, ⟨0, 0, 1⟩, .dielectric 3⟩ =
      some (⟨⟨0, 0, 1⟩,
        reflect (⟨⟨0, 0, 0⟩, ⟨3 / 5, 0, 4 / 5⟩⟩ : Ray).direction ⟨0, 0, 1⟩⟩,
        ⟨1, 1, 1⟩) := by
  have hrefr : refract sqDemo (⟨⟨0, 0, 0⟩, ⟨0, 0, 1⟩⟩ : Ray).direction
      (dielectricParams sqDemo 3 ⟨⟨0, 0, 0⟩, ⟨0, 0, 1⟩⟩
        ⟨1, ⟨0, 0, 1⟩, ⟨0, 0, -1⟩, .dielectric 3⟩).1
      (dielectricParams sqDemo 3 ⟨⟨0, 0, 0⟩, ⟨0, 0, 1⟩⟩
        ⟨1, ⟨0, 0, 1⟩, ⟨0, 0, -1⟩, .dielectric 3⟩).2.1 = some ⟨0, 0, 1⟩ := by
    norm_num [refract, dielectricParams, Vec3.intoUnit, Vec3.length, Vec3.dot,
      Vec3.smul_def, Vec3.sub_def, Vec3.neg_def, Vec3.div_def, sqDemo]
  have htir : refract sqDemo (⟨⟨0, 0, 0⟩, ⟨3 / 5, 0, 4 / 5⟩⟩ : Ray).direction
      (dielectricParams sqDemo 3 ⟨⟨0, 0, 0⟩, ⟨3 / 5, 0, 4 / 5⟩⟩
        ⟨1, ⟨0, 0, 1⟩, ⟨0, 0, 1⟩, .dielectric 3⟩).1
      (dielectricParams sqDemo 3 ⟨⟨0, 0, 0⟩, ⟨3 / 5, 0, 4 / 5⟩⟩
        ⟨1, ⟨0, 0, 1⟩, ⟨0, 0, 1⟩, .dielectric 3⟩).2.1 = none := by
    norm_num [refract, dielectricParams, Vec3.intoUnit, Vec3.length, Vec3.dot,
      Vec3.smul_def, Vec3.sub_def, Vec3.neg_def, Vec3.div_def, sqDemo]
  refine ⟨hrefr, ?_, ?_, ?_⟩
  · have := (dielectric_scatter_spec sqDemo ⟨⟨0, 0, 0⟩, 1 / 2⟩ 3
        ⟨⟨0, 0, 0⟩, ⟨0, 0, 1⟩⟩ ⟨1, ⟨0, 0, 1⟩, ⟨0, 0, -1⟩, .dielectric 3⟩).2.2.1
        ⟨0, 0, 1⟩ hrefr
      (by norm_num [schlick, dielectricParams, Vec3.length, Vec3.dot, sqDemo])
    exact this
  · have := (dielectric_scatter_spec sqDemo ⟨⟨0, 0, 0⟩, 0⟩ 3
        ⟨⟨0, 0, 0⟩, ⟨0, 0, 1⟩⟩ ⟨1, ⟨0, 0, 1⟩, ⟨0, 0, -1⟩, .dielectric 3⟩).2.2.2.1
        ⟨0, 0, 1⟩ hrefr
      (by norm_num [schlick, dielectricParams, Vec3.length, Vec3.dot, sqDemo])
    exact this
  · exact (dielectric_scatter_spec sqDemo ⟨⟨0, 0, 0⟩, 0⟩ 3
      ⟨⟨0, 0, 0⟩, ⟨3 / 5, 0, 4 / 5⟩⟩
      ⟨1, ⟨0, 0, 1⟩, ⟨0, 0, 1⟩, .dielectric 3⟩).2.2.2.2 htir

/-- A hit record returned by `Sphere.hit` always has `t` below the upper bound
of the search interval. -/
theorem sphereHit_t_lt_tmax {sq : ℚ → ℚ} {s : Sphere} {ray : Ray}
    {tmin tmax : ℚ} {r : HitRecord}
    (h : Sphere.hit sq s ray tmin tmax = some r) : r.t < tmax := by
  rw [Sphere.hit] at h
  split_ifs at h with h1 h2 h3
  · cases h
    simpa [Sphere.mkRec] using h2.1
  · cases h
    simpa [Sphere.mkRec] using h3.1

/-- Modelled from the spec's description of the scene hit test seen as a
specification: return the accepted hit of minimal `t`, the primitive earliest
in the sequence winning ties. -/
def closestHitSpec (sq : ℚ → ℚ) : List Sphere → Ray → ℚ → ℚ → Option HitRecord
  | [], _, _, _ => none
  | o :: rest, ray, tmin, tmax =>
      match o.hit sq ray tmin tmax, closestHitSpec sq rest ray tmin tmax with
      | none, r => r
      | some rec, none => some rec
      | some rec, some best =>
          if rec.t ≤ best.t then some rec else some best

/-- How one fold step combines with an already-computed best-of-the-rest. -/
def mergeHit (acc r : Option HitRecord) : Option HitRecord :=
  match acc, r with
  | none, r => r
  | some h, none => some h
  | some h, some b => if b.t < h.t then some b else some h

/-- The source's left fold with any accumulator computes the `mergeHit` of the
accumulator with the spec-level closest hit of the list. -/
theorem foldl_hitFoldStep_eq (sq : ℚ → ℚ) (ray : Ray) (tmin tmax : ℚ)
    (l : List Sphere) :
    ∀ acc, l.foldl (hitFoldStep sq ray tmin tmax) acc =
      mergeHit acc (closestHitSpec sq l ray tmin tmax) := by
  induction l with
  | nil =>
      intro acc
      cases acc <;> rfl
  | cons o l ih =>
      intro acc
      rw [List.foldl_cons, ih]
      rcases hO : o.hit sq ray tmin tmax with _ | rec
      · simp [hitFoldStep, closestHitSpec, hO]
      · have hlt : rec.t < tmax := sphereHit_t_lt_tmax hO
        rcases hS : closestHitSpec sq l ray tmin tmax with _ | best
        · rcases acc with _ | h
          · simp [hitFoldStep, closestHitSpec, hO, hS, mergeHit, hlt]
          · simp only [hitFoldStep, closestHitSpec, hO, hS]
            split_ifs with hc <;> simp [mergeHit, hc]
        · rcases acc with _ | h
          · simp only [hitFoldStep, closestHitSpec, hO, hS, hlt, if_true,
              mergeHit]
            split_ifs <;> first | rfl | (exfalso; linarith)
          · simp only [hitFoldStep, closestHitSpec, hO, hS]
            split_ifs <;> simp only [mergeHit] <;>
              split_ifs <;> first | rfl | (exfalso; linarith)

/-- The spec-level closest hit is `none` exactly when every primitive misses. -/
theorem closestHitSpec_eq_none_iff (sq : ℚ → ℚ) (ray : Ray) (tmin tmax : ℚ)
    (l : List Sphere) :
    closestHitSpec sq l ray tmin tmax = none ↔
      ∀ o ∈ l, o.hit sq ray tmin tmax = none := by
  induction l with
  | nil => simp [closestHitSpec]
  | cons o l ih =>
      rcases hO : o.hit sq ray tmin tmax with _ | rec <;>
        rcases hS : closestHitSpec sq l ray tmin tmax with _ | best <;>
          simp [closestHitSpec, hO, hS, List.forall_mem_cons, ← ih] <;>
          split_ifs <;> simp

/-- The spec-level closest hit is an accepted hit of one of the primitives and
its `t` is minimal among all accepted hits. -/
theorem closestHitSpec_min (sq : ℚ → ℚ) (ray : Ray) (tmin tmax : ℚ)
    (l : List Sphere) (r : HitRecord)
    (h : closestHitSpec sq l ray tmin tmax = some r) :
    (∃ o ∈ l, o.hit sq ray tmin tmax = some r) ∧
      ∀ o ∈ l, ∀ r', o.hit sq ray tmin tmax = some r' → r.t ≤ r'.t := by
  induction l generalizing r with
  | nil => exact Option.noConfusion h
  | cons o l ih =>
      rcases hO : o.hit sq ray tmin tmax with _ | rec
      · simp only [closestHitSpec, hO] at h
        -- head misses: the result comes from the rest of the list
        obtain ⟨⟨o', ho', h1⟩, h2⟩ := ih r h
        refine ⟨⟨o', List.mem_cons_of_mem _ ho', h1⟩, ?_⟩
        intro o'' ho'' r' hr'
        rcases List.mem_cons.mp ho'' with rfl | hmem
        · rw [hO] at hr'; exact Option.noConfusion hr'
        · exact h2 o'' hmem r' hr'
      · rcases hS : closestHitSpec sq l ray tmin tmax with _ | best <;>
          simp only [closestHitSpec, hO, hS] at h
        · -- rest misses entirely: the head's record is returned
          cases h
          refine ⟨⟨o, List.mem_cons_self o l, hO⟩, ?_⟩
          intro o'' ho'' r' hr'
          rcases List.mem_cons.mp ho'' with rfl | hmem
          · rw [hO] at hr'
            cases hr'
            exact le_refl _
          · rw [(closestHitSpec_eq_none_iff sq ray tmin tmax l).mp hS o'' hmem]
              at hr'
            exact Option.noConfusion hr'
        · by_cases hc : rec.t ≤ best.t
          · rw [if_pos hc] at h
            cases h
            refine ⟨⟨o, List.mem_cons_self o l, hO⟩, ?_⟩
            intro o'' ho'' r' hr'
            rcases List.mem_cons.mp ho'' with rfl | hmem
            · rw [hO] at hr'
              cases hr'
              exact le_refl _
            · exact le_trans hc ((ih best hS).2 o'' hmem r' hr')
          · rw [if_neg hc] at h
            have hrb : best = r := Option.some.inj h
            subst hrb
            obtain ⟨⟨o', ho', h1⟩, h2⟩ := ih best hS
            refine ⟨⟨o', List.mem_cons_of_mem _ ho', h1⟩, ?_⟩
            intro o'' ho'' r' hr'
            rcases List.mem_cons.mp ho'' with rfl | hmem
            · rw [hO] at hr'
              cases hr'
              exact le_of_not_le hc
            · exact h2 o'' hmem r' hr'

/-- C2: the scene-level hit test returns no hit exactly when no primitive hits
within the interval; otherwise it is the record of minimal `t` among all
primitives' accepted hits, the primitive earliest in the sequence winning
numerically equal `t` because only a strictly smaller `t` replaces the current
best (the equality with `closestHitSpec` carries the tie-break). -/
theorem world_hit_spec (sq : ℚ → ℚ) (world : List Sphere) (ray : Ray)
    (tmin tmax : ℚ) :
    worldHit sq world ray tmin tmax = closestHitSpec sq world ray tmin tmax ∧
    (worldHit sq world ray tmin tmax = none ↔
      ∀ o ∈ world, o.hit sq ray tmin tmax = none) ∧
    (∀ r, worldHit sq world ray tmin tmax = some r →
      (∃ o ∈ world, o.hit sq ray tmin tmax = some r) ∧
        ∀ o ∈ world, ∀ r', o.hit sq ray tmin tmax = some r' → r.t ≤ r'.t) := by
  have heq : worldHit sq world ray tmin tmax =
      closestHitSpec sq world ray tmin tmax := by
    rw [worldHit, foldl_hitFoldStep_eq]
    rfl
  refine ⟨heq, ?_, ?_⟩
  · rw [heq]
    exact closestHitSpec_eq_none_iff sq ray tmin tmax world
  · intro r h
    rw [heq] at h
    exact closestHitSpec_min sq ray tmin tmax world r h

/-- Witness for C2: two coincident unit spheres at `(0,0,3)` with different
albedos produce numerically equal `t = 2`; the scene hit test returns the
record of the first sphere in the sequence. -/
theorem world_hit_spec_witness :
    worldHit sqDemo
      [⟨⟨0, 0, 3⟩, 1, .lambertian ⟨1, 0, 0⟩⟩, ⟨⟨0, 0, 3⟩, 1, .lambertian ⟨0, 1, 0⟩⟩]
      ⟨⟨0, 0, 0⟩, ⟨0, 0, 1⟩⟩ (1 / 1000) 10 =
      some ⟨2, ⟨0, 0, 2⟩, ⟨0, 0, -1⟩, .lambertian ⟨1, 0, 0⟩⟩ ∧
    (∃ o ∈ [(⟨⟨0, 0, 3⟩, 1, .lambertian ⟨1, 0, 0⟩⟩ : Sphere),
        ⟨⟨0, 0, 3⟩, 1, .lambertian ⟨0, 1, 0⟩⟩],
      o.hit sqDemo ⟨⟨0, 0, 0⟩, ⟨0, 0, 1⟩⟩ (1 / 1000) 10 =
        some ⟨2, ⟨0, 0, 2⟩, ⟨0, 0, -1⟩, .lambertian ⟨1, 0, 0⟩⟩) ∧
    ∀ o ∈ [(⟨⟨0, 0, 3⟩, 1, .lambertian ⟨1, 0, 0⟩⟩ : Sphere),
        ⟨⟨0, 0, 3⟩, 1, .lambertian ⟨0, 1, 0⟩⟩],
      ∀ r', o.hit sqDemo ⟨⟨0, 0, 0⟩, ⟨0, 0, 1⟩⟩ (1 / 1000) 10 = some r' →
        (2 : ℚ) ≤ r'.t := by
  have hw : worldHit sqDemo
      [⟨⟨0, 0, 3⟩, 1, .lambertian ⟨1, 0, 0⟩⟩, ⟨⟨0, 0, 3⟩, 1, .lambertian ⟨0, 1, 0⟩⟩]
      ⟨⟨0, 0, 0⟩, ⟨0, 0, 1⟩⟩ (1 / 1000) 10 =
      some ⟨2, ⟨0, 0, 2⟩, ⟨0, 0, -1⟩, .lambertian ⟨1, 0, 0⟩⟩ := by
    norm_num [worldHit, List.foldl, hitFoldStep, Sphere.hit, Sphere.mkRec,
      sphereDisc, sphereRoot1, sphereRoot2, sphereA, sphereB, sphereC,
      sphereOC, Ray.pointAtParameter, Vec3.dot, Vec3.add_def, Vec3.sub_def,
      Vec3.smul_def, Vec3.div_def, sqDemo]
  have hmin := (world_hit_spec sqDemo
      [⟨⟨0, 0, 3⟩, 1, .lambertian ⟨1, 0, 0⟩⟩, ⟨⟨0, 0, 3⟩, 1, .lambertian ⟨0, 1, 0⟩⟩]
      ⟨⟨0, 0, 0⟩, ⟨0, 0, 1⟩⟩ (1 / 1000) 10).2.2
      ⟨2, ⟨0, 0, 2⟩, ⟨0, 0, -1⟩, .lambertian ⟨1, 0, 0⟩⟩ hw
  exact ⟨hw, hmin.1, hmin.2⟩

/-- Componentwise multiplication by the white vector is the identity. -/
theorem white_mul (v : Vec3) : (⟨1, 1, 1⟩ : Vec3) * v = v := by
  ext <;> simp

/-- Loop unfolding: no intersection terminates with strength times the sky. -/
theorem colorLoop_of_none (sq : ℚ → ℚ) (world : List Sphere)
    (rnds : ℕ → RandSample) (ray : Ray) (strength : Vec3) (bounces : ℕ)
    (hW : worldHit sq world ray (1 / 1000) f32MAX = none) :
    colorLoop sq world rnds ray strength bounces =
      strength * skyColor sq ray := by
  rw [colorLoop.eq_def, hW]

/-- Loop unfolding: an intersection with the bounce budget exhausted
terminates with black. -/
theorem colorLoop_of_budget (sq : ℚ → ℚ) (world : List Sphere)
    (rnds : ℕ → RandSample) (ray : Ray) (strength : Vec3) (bounces : ℕ)
    (hit : HitRecord)
    (hW : worldHit sq world ray (1 / 1000) f32MAX = some hit)
    (hb : 50 ≤ bounces) :
    colorLoop sq world rnds ray strength bounces = 0 := by
  rw [colorLoop.eq_def]
  simp only [hW]
  rw [dif_neg (not_lt.mpr hb)]

/-- Loop unfolding: an intersection whose material absorbs the ray terminates
with black. -/
theorem colorLoop_of_absorb (sq : ℚ → ℚ) (world : List Sphere)
    (rnds : ℕ → RandSample) (ray : Ray) (strength : Vec3) (bounces : ℕ)
    (hit : HitRecord)
    (hW : worldHit sq world ray (1 / 1000) f32MAX = some hit)
    (hb : bounces < 50)
    (hSc : scatter sq (rnds bounces) hit.material ray hit = none) :
    colorLoop sq world rnds ray strength bounces = 0 := by
  rw [colorLoop.eq_def]
  simp only [hW]
  rw [dif_pos hb]
  simp only [hSc]

/-- Loop unfolding: a successful scatter multiplies the strength by the
attenuation, replaces the ray, and increments the bounce counter. -/
theorem colorLoop_of_scatter (sq : ℚ → ℚ) (world : List Sphere)
    (rnds : ℕ → RandSample) (ray : Ray) (strength : Vec3) (bounces : ℕ)
    (hit : HitRecord) (newRay : Ray) (att : Vec3)
    (hW : worldHit sq world ray (1 / 1000) f32MAX = some hit)
    (hb : bounces < 50)
    (hSc : scatter sq (rnds bounces) hit.material ray hit =
      some (newRay, att)) :
    colorLoop sq world rnds ray strength bounces =
      colorLoop sq world rnds newRay (strength * att) (bounces + 1) := by
  conv_lhs => rw [colorLoop.eq_def]
  simp only [hW]
  rw [dif_pos hb]
  simp only [hSc]

/-- C1: the path integrator is a three-way terminal state machine: no
intersection yields strength times the sky gradient; an intersection with the
budget reached (or whose scatter absorbs) yields exactly black; a successful
scatter multiplies the strength by the attenuation, replaces the ray,
increments the bounce count and repeats. -/
theorem color_state_machine (sq : ℚ → ℚ) (world : List Sphere)
    (rnds : ℕ → RandSample) (ray : Ray) (strength : Vec3) (bounces : ℕ) :
    (worldHit sq world ray (1 / 1000) f32MAX = none →
      colorLoop sq world rnds ray strength bounces =
        strength * skyColor sq ray) ∧
    (∀ hit, worldHit sq world ray (1 / 1000) f32MAX = some hit →
      50 ≤ bounces →
      colorLoop sq world rnds ray strength bounces = 0) ∧
    (∀ hit, worldHit sq world ray (1 / 1000) f32MAX = some hit →
      bounces < 50 →
      scatter sq (rnds bounces) hit.material ray hit = none →
      colorLoop sq world rnds ray strength bounces = 0) ∧
    (∀ hit newRay att, worldHit sq world ray (1 / 1000) f32MAX = some hit →
      bounces < 50 →
      scatter sq (rnds bounces) hit.material ray hit = some (newRay, att) →
      colorLoop sq world rnds ray strength bounces =
        colorLoop sq world rnds newRay (strength * att) (bounces + 1)) :=
  ⟨fun hW => colorLoop_of_none sq world rnds ray strength bounces hW,
    fun hit hW hb => colorLoop_of_budget sq world rnds ray strength bounces
      hit hW hb,
    fun hit hW hb hSc => colorLoop_of_absorb sq world rnds ray strength
      bounces hit hW hb hSc,
    fun hit newRay att hW hb hSc => colorLoop_of_scatter sq world rnds ray
      strength bounces hit newRay att hW hb hSc⟩

/-- Witness for C1: concrete instances of the four transitions, on single
spheres behind or in front of the ray from the origin along `+z`. -/
theorem color_state_machine_witness :
    (worldHit sqDemo [⟨⟨0, 0, -3⟩, 1, .lambertian ⟨1, 1, 1⟩⟩]
      ⟨⟨0, 0, 0⟩, ⟨0, 0, 1⟩⟩ (1 / 1000) f32MAX = none) ∧
    colorLoop sqDemo [⟨⟨0, 0, -3⟩, 1, .lambertian ⟨1, 1, 1⟩⟩]
      (fun _ => ⟨⟨0, 0, 9 / 10⟩, 0⟩) ⟨⟨0, 0, 0⟩, ⟨0, 0, 1⟩⟩ ⟨1, 1, 1⟩ 0 =
      (⟨1, 1, 1⟩ : Vec3) * skyColor sqDemo ⟨⟨0, 0, 0⟩, ⟨0, 0, 1⟩⟩ ∧
    (worldHit sqDemo [⟨⟨0, 0, 2⟩, 1, .lambertian ⟨1 / 2, 1 / 2, 1 / 2⟩⟩]
      ⟨⟨0, 0, 0⟩, ⟨0, 0, 1⟩⟩ (1 / 1000) f32MAX =
      some ⟨1, ⟨0, 0, 1⟩, ⟨0, 0, -1⟩, .lambertian ⟨1 / 2, 1 / 2, 1 / 2⟩⟩) ∧
    colorLoop sqDemo [⟨⟨0, 0, 2⟩, 1, .lambertian ⟨1 / 2, 1 / 2, 1 / 2⟩⟩]
      (fun _ => ⟨⟨0, 0, 9 / 10⟩, 0⟩) ⟨⟨0, 0, 0⟩, ⟨0, 0, 1⟩⟩ ⟨1, 1, 1⟩ 50 = 0 ∧
    (scatter sqDemo ⟨⟨0, 0, 9 / 10⟩, 0⟩ (.metal ⟨1, 0, 0⟩ 2)
      ⟨⟨0, 0, 0⟩, ⟨0, 0, 1⟩⟩ ⟨1, ⟨0, 0, 1⟩, ⟨0, 0, -1⟩, .metal ⟨1, 0, 0⟩ 2⟩ =
      none) ∧
    colorLoop sqDemo [⟨⟨0, 0, 2⟩, 1, .metal ⟨1, 0, 0⟩ 2⟩]
      (fun _ => ⟨⟨0, 0, 9 / 10⟩, 0⟩) ⟨⟨0, 0, 0⟩, ⟨0, 0, 1⟩⟩ ⟨1, 1, 1⟩ 0 = 0 ∧
    (scatter sqDemo ⟨⟨0, 0, 9 / 10⟩, 0⟩ (.lambertian ⟨1 / 2, 1 / 2, 1 / 2⟩)
      ⟨⟨0, 0, 0⟩, ⟨0, 0, 1⟩⟩
      ⟨1, ⟨0, 0, 1⟩, ⟨0, 0, -1⟩, .lambertian ⟨1 / 2, 1 / 2, 1 / 2⟩⟩ =
      some (⟨⟨0, 0, 1⟩, ⟨0, 0, -1 / 10⟩⟩, ⟨1 / 2, 1 / 2, 1 / 2⟩)) ∧
    colorLoop sqDemo [⟨⟨0, 0, 2⟩, 1, .lambertian ⟨1 / 2, 1 / 2, 1 / 2⟩⟩]
      (fun _ => ⟨⟨0, 0, 9 / 10⟩, 0⟩) ⟨⟨0, 0, 0⟩, ⟨0, 0, 1⟩⟩ ⟨1, 1, 1⟩ 0 =
      colorLoop sqDemo [⟨⟨0, 0, 2⟩, 1, .lambertian ⟨1 / 2, 1 / 2, 1 / 2⟩⟩]
        (fun _ => ⟨⟨0, 0, 9 / 10⟩, 0⟩) ⟨⟨0, 0, 1⟩, ⟨0, 0, -1 / 10⟩⟩
        ((⟨1, 1, 1⟩ : Vec3) * (⟨1 / 2, 1 / 2, 1 / 2⟩ : Vec3)) 1 := by
  have hmiss : worldHit sqDemo [⟨⟨0, 0, -3⟩, 1, .lambertian ⟨1, 1, 1⟩⟩]
      ⟨⟨0, 0, 0⟩, ⟨0, 0, 1⟩⟩ (1 / 1000) f32MAX = none := by
    norm_num [worldHit, List.foldl, hitFoldStep, Sphere.hit, Sphere.mkRec,
      sphereDisc, sphereRoot1, sphereRoot2, sphereA, sphereB, sphereC,
      sphereOC, Vec3.dot, Vec3.sub_def, sqDemo, f32MAX]
  have hhitL : worldHit sqDemo [⟨⟨0, 0, 2⟩, 1, .lambertian ⟨1 / 2, 1 / 2, 1 / 2⟩⟩]
      ⟨⟨0, 0, 0⟩, ⟨0, 0, 1⟩⟩ (1 / 1000) f32MAX =
      some ⟨1, ⟨0, 0, 1⟩, ⟨0, 0, -1⟩, .lambertian ⟨1 / 2, 1 / 2, 1 / 2⟩⟩ := by
    norm_num [worldHit, List.foldl, hitFoldStep, Sphere.hit, Sphere.mkRec,
      sphereDisc, sphereRoot1, sphereRoot2, sphereA, sphereB, sphereC,
      sphereOC, Ray.pointAtParameter, Vec3.dot, Vec3.add_def, Vec3.sub_def,
      Vec3.smul_def, Vec3.div_def, sqDemo, f32MAX]
  have hhitM : worldHit sqDemo [⟨⟨0, 0, 2⟩, 1, .metal ⟨1, 0, 0⟩ 2⟩]
      ⟨⟨0, 0, 0⟩, ⟨0, 0, 1⟩⟩ (1 / 1000) f32MAX =
      some ⟨1, ⟨0, 0, 1⟩, ⟨0, 0, -1⟩, .metal ⟨1, 0, 0⟩ 2⟩ := by
    norm_num [worldHit, List.foldl, hitFoldStep, Sphere.hit, Sphere.mkRec,
      sphereDisc, sphereRoot1, sphereRoot2, sphereA, sphereB, sphereC,
      sphereOC, Ray.pointAtParameter, Vec3.dot, Vec3.add_def, Vec3.sub_def,
      Vec3.smul_def, Vec3.div_def, sqDemo, f32MAX]
  have hscM : scatter sqDemo ⟨⟨0, 0, 9 / 10⟩, 0⟩ (.metal ⟨1, 0, 0⟩ 2)
      ⟨⟨0, 0, 0⟩, ⟨0, 0, 1⟩⟩ ⟨1, ⟨0, 0, 1⟩, ⟨0, 0, -1⟩, .metal ⟨1, 0, 0⟩ 2⟩ =
      none := by
    norm_num [scatter, reflect, Vec3.intoUnit, Vec3.length, Vec3.dot,
      Vec3.add_def, Vec3.sub_def, Vec3.smul_def, Vec3.div_def, sqDemo]
  have hscL : scatter sqDemo ⟨⟨0, 0, 9 / 10⟩, 0⟩
      (.lambertian ⟨1 / 2, 1 / 2, 1 / 2⟩) ⟨⟨0, 0, 0⟩, ⟨0, 0, 1⟩⟩
      ⟨1, ⟨0, 0, 1⟩, ⟨0, 0, -1⟩, .lambertian ⟨1 / 2, 1 / 2, 1 / 2⟩⟩ =
      some (⟨⟨0, 0, 1⟩, ⟨0, 0, -1 / 10⟩⟩, ⟨1 / 2, 1 / 2, 1 / 2⟩) := by
    norm_num [scatter, Vec3.add_def, Vec3.sub_def]
  exact ⟨hmiss,
    (color_state_machine sqDemo [⟨⟨0, 0, -3⟩, 1, .lambertian ⟨1, 1, 1⟩⟩]
      (fun _ => ⟨⟨0, 0, 9 / 10⟩, 0⟩) ⟨⟨0, 0, 0⟩, ⟨0, 0, 1⟩⟩ ⟨1, 1, 1⟩ 0).1 hmiss,
    hhitL,
    (color_state_machine sqDemo
      [⟨⟨0, 0, 2⟩, 1, .lambertian ⟨1 / 2, 1 / 2, 1 / 2⟩⟩]
      (fun _ => ⟨⟨0, 0, 9 / 10⟩, 0⟩) ⟨⟨0, 0, 0⟩, ⟨0, 0, 1⟩⟩ ⟨1, 1, 1⟩ 50).2.1
      ⟨1, ⟨0, 0, 1⟩, ⟨0, 0, -1⟩, .lambertian ⟨1 / 2, 1 / 2, 1 / 2⟩⟩ hhitL
      (by norm_num),
    hscM,
    (color_state_machine sqDemo [⟨⟨0, 0, 2⟩, 1, .metal ⟨1, 0, 0⟩ 2⟩]
      (fun _ => ⟨⟨0, 0, 9 / 10⟩, 0⟩) ⟨⟨0, 0, 0⟩, ⟨0, 0, 1⟩⟩ ⟨1, 1, 1⟩ 0).2.2.1
      ⟨1, ⟨0, 0, 1⟩, ⟨0, 0, -1⟩, .metal ⟨1, 0, 0⟩ 2⟩ hhitM (by norm_num) hscM,
    hscL,
    (color_state_machine sqDemo
      [⟨⟨0, 0, 2⟩, 1, .lambertian ⟨1 / 2, 1 / 2, 1 / 2⟩⟩]
      (fun _ => ⟨⟨0, 0, 9 / 10⟩, 0⟩) ⟨⟨0, 0, 0⟩, ⟨0, 0, 1⟩⟩ ⟨1, 1, 1⟩ 0).2.2.2
      ⟨1, ⟨0, 0, 1⟩, ⟨0, 0, -1⟩, .lambertian ⟨1 / 2, 1 / 2, 1 / 2⟩⟩
      ⟨⟨0, 0, 1⟩, ⟨0, 0, -1 / 10⟩⟩ ⟨1 / 2, 1 / 2, 1 / 2⟩ hhitL (by norm_num)
      hscL⟩

/-- With enough fuel (one more than the remaining bounce budget), the
small-step loop terminates and computes exactly what `colorLoop` computes. -/
theorem runLoop_complete (sq : ℚ → ℚ) (world : List Sphere)
    (rnds : ℕ → RandSample) :
    ∀ (n : ℕ) (s : LoopState), 50 < s.bounces + n → 1 ≤ n →
      runLoop sq world rnds n s =
        some (colorLoop sq world rnds s.ray s.strength s.bounces) := by
  intro n
  induction n with
  | zero =>
      intro s h1 h2
      omega
  | succ n ih =>
      intro s h1 _
      obtain ⟨ray, strength, bounces⟩ := s
      have h1' : 50 < bounces + (n + 1) := h1
      rw [runLoop]
      rcases hW : worldHit sq world ray (1 / 1000) f32MAX with _ | hit
      · simp only [loopStep, hW]
        rw [colorLoop_of_none sq world rnds ray strength bounces hW]
      · by_cases hb : bounces < 50
        · rcases hSc : scatter sq (rnds bounces) hit.material ray hit
            with _ | pair
          · simp only [loopStep, hW]
            rw [if_pos hb]
            simp only [hSc]
            rw [colorLoop_of_absorb sq world rnds ray strength bounces hit hW
              hb hSc]
          · obtain ⟨newRay, att⟩ := pair
            simp only [loopStep, hW]
            rw [if_pos hb]
            simp only [hSc]
            rw [ih ⟨newRay, strength * att, bounces + 1⟩ (by simp; omega)
              (by omega)]
            rw [colorLoop_of_scatter sq world rnds ray strength bounces hit
              newRay att hW hb hSc]
        · simp only [loopStep, hW]
          rw [if_neg hb]
          rw [colorLoop_of_budget sq world rnds ray strength bounces hit hW
            (by omega)]

/-- C8: the `color` loop terminates for every world and ray: running the
small-step loop from strength white and zero bounces for 51 iterations always
reaches a terminal value, which is the value `color` computes, and the single
non-terminal transition increments the bounce counter by exactly one. -/
theorem color_terminates (sq : ℚ → ℚ) (world : List Sphere)
    (rnds : ℕ → RandSample) (ray : Ray) :
    runLoop sq world rnds 51 ⟨ray, ⟨1, 1, 1⟩, 0⟩ =
      some (color sq world rnds ray) ∧
    ∀ s s', loopStep sq world rnds s = Sum.inl s' →
      s'.bounces = s.bounces + 1 := by
  constructor
  · exact runLoop_complete sq world rnds 51 ⟨ray, ⟨1, 1, 1⟩, 0⟩ (by simp)
      (by omega)
  · intro s s' h
    unfold loopStep at h
    rcases hW : worldHit sq world s.ray (1 / 1000) f32MAX with _ | hit
    · simp only [hW] at h <;> exact Sum.noConfusion h
    · simp only [hW] at h
      by_cases hb : s.bounces < 50
      · rw [if_pos hb] at h
        rcases hSc : scatter sq (rnds s.bounces) hit.material s.ray hit
          with _ | pair
        · simp only [hSc] at h <;> exact Sum.noConfusion h
        · obtain ⟨nr, att⟩ := pair
          simp only [hSc] at h
          cases h
          rfl
      · rw [if_neg hb] at h
        exact Sum.noConfusion h

/-- Witness for C8: one concrete non-terminal transition of the loop (a
Lambertian bounce) increments the bounce counter from 0 to 1. -/
theorem color_terminates_witness :
    loopStep sqDemo [⟨⟨0, 0, 2⟩, 1, .lambertian ⟨1 / 2, 1 / 2, 1 / 2⟩⟩]
      (fun _ => ⟨⟨0, 0, 9 / 10⟩, 0⟩)
      ⟨⟨⟨0, 0, 0⟩, ⟨0, 0, 1⟩⟩, ⟨1, 1, 1⟩, 0⟩ =
      Sum.inl ⟨⟨⟨0, 0, 1⟩, ⟨0, 0, -1 / 10⟩⟩, ⟨1 / 2, 1 / 2, 1 / 2⟩, 1⟩ ∧
    (⟨⟨⟨0, 0, 1⟩, ⟨0, 0, -1 / 10⟩⟩, ⟨1 / 2, 1 / 2, 1 / 2⟩, 1⟩ :
      LoopState).bounces =
      (⟨⟨⟨0, 0, 0⟩, ⟨0, 0, 1⟩⟩, ⟨1, 1, 1⟩, 0⟩ : LoopState).bounces + 1 := by
  have hstep : loopStep sqDemo
      [⟨⟨0, 0, 2⟩, 1, .lambertian ⟨1 / 2, 1 / 2, 1 / 2⟩⟩]
      (fun _ => ⟨⟨0, 0, 9 / 10⟩, 0⟩)
      ⟨⟨⟨0, 0, 0⟩, ⟨0, 0, 1⟩⟩, ⟨1, 1, 1⟩, 0⟩ =
      Sum.inl ⟨⟨⟨0, 0, 1⟩, ⟨0, 0, -1 / 10⟩⟩, ⟨1 / 2, 1 / 2, 1 / 2⟩, 1⟩ := by
    norm_num [loopStep, worldHit, List.foldl, hitFoldStep, Sphere.hit,
      Sphere.mkRec, sphereDisc, sphereRoot1, sphereRoot2, sphereA, sphereB,
      sphereC, sphereOC, Ray.pointAtParameter, scatter, Vec3.dot,
      Vec3.add_def, Vec3.sub_def, Vec3.smul_def, Vec3.div_def, Vec3.mul_def,
      sqDemo, f32MAX]
  exact ⟨hstep,
    (color_terminates sqDemo [⟨⟨0, 0, 2⟩, 1, .lambertian ⟨1 / 2, 1 / 2, 1 / 2⟩⟩]
      (fun _ => ⟨⟨0, 0, 9 / 10⟩, 0⟩) ⟨⟨0, 0, 0⟩, ⟨0, 0, 1⟩⟩).2
      ⟨⟨⟨0, 0, 0⟩, ⟨0, 0, 1⟩⟩, ⟨1, 1, 1⟩, 0⟩
      ⟨⟨⟨0, 0, 1⟩, ⟨0, 0, -1 / 10⟩⟩, ⟨1 / 2, 1 / 2, 1 / 2⟩, 1⟩ hstep⟩

/-- C10: the empty scene never hits anything, so `color` on the empty world
does zero bounces (the loop terminates on its very first iteration) and
returns exactly the sky gradient, the accumulated strength still being
`(1,1,1)`.  The non-zero-direction hypothesis mirrors the claim; in the exact
rational model division by a zero length is total, so the equation holds
unconditionally. -/
theorem empty_world_sky (sq : ℚ → ℚ) (rnds : ℕ → RandSample) (ray : Ray)
    (hray : ray.direction ≠ 0) :
    (∀ tmin tmax : ℚ, worldHit sq [] ray tmin tmax = none) ∧
    color sq [] rnds ray = skyColor sq ray ∧
    runLoop sq [] rnds 1 ⟨ray, ⟨1, 1, 1⟩, 0⟩ = some (skyColor sq ray) := by
  refine ⟨fun _ _ => rfl, ?_, ?_⟩
  · rw [color, colorLoop_of_none sq [] rnds ray ⟨1, 1, 1⟩ 0 rfl]
    exact white_mul _
  · rw [runLoop]
    simp only [loopStep, worldHit, List.foldl]
    rw [white_mul]

/-- Witness for C10 on the ray from the origin along `+z`. -/
theorem empty_world_sky_witness :
    ((⟨⟨0, 0, 0⟩, ⟨0, 0, 1⟩⟩ : Ray).direction ≠ 0) ∧
    color sqDemo [] (fun _ => ⟨⟨0, 0, 9 / 10⟩, 0⟩) ⟨⟨0, 0, 0⟩, ⟨0, 0, 1⟩⟩ =
      skyColor sqDemo ⟨⟨0, 0, 0⟩, ⟨0, 0, 1⟩⟩ :=
  ⟨by intro h; simpa using congrArg Vec3.z h,
    (empty_world_sky sqDemo (fun _ => ⟨⟨0, 0, 9 / 10⟩, 0⟩)
      ⟨⟨0, 0, 0⟩, ⟨0, 0, 1⟩⟩
      (by intro h; simpa using congrArg Vec3.z h)).2.1⟩

/-- C9: the renderer builds exactly `ny` rows of exactly `nx` pixels, row `i`
holding the pixel values `f x (ny-1-i)` (rayon's ordered collect over
`(0..ny).rev()` fixes the row order regardless of parallel scheduling), and
each output channel is quantized as `floor(255.99 * sqrt(channel))` with no
clamping, which lands in `[0,255]` whenever the channel lies in `[0,1]`.  The
hypotheses `0 ≤ sq c ≤ 1` state that the square root of a channel in `[0,1]`
lies in `[0,1]`, the property of the real square root that the abstract `sq`
modelling `f32::sqrt` satisfies there. -/
theorem renderer_shape_quantization (nx ny : ℕ) (f : ℕ → ℕ → Vec3)
    (sq : ℚ → ℚ) :
    (imageCompute nx ny f).length = ny ∧
    (∀ row ∈ imageCompute nx ny f, row.length = nx) ∧
    (∀ i, i < ny → ∀ x, x < nx →
      ((imageCompute nx ny f).getD i []).getD x 0 = f x (ny - 1 - i)) ∧
    (∀ v : Vec3, ppmPixel sq v =
      (gammaQuantize sq v.x, gammaQuantize sq v.y, gammaQuantize sq v.z)) ∧
    (∀ c : ℚ, 0 ≤ c → c ≤ 1 → 0 ≤ sq c → sq c ≤ 1 →
      gammaQuantize sq c = ⌊(25599 / 100 : ℚ) * sq c⌋ ∧
      0 ≤ gammaQuantize sq c ∧ gammaQuantize sq c ≤ 255) := by
  refine ⟨?_, ?_, ?_, fun v => rfl, ?_⟩
  · simp [imageCompute]
  · intro row hrow
    simp only [imageCompute, List.mem_map] at hrow
    obtain ⟨y, _, rfl⟩ := hrow
    simp
  · intro i hi x hx
    simp [imageCompute, hi, hx]
  · intro c _ _ hs0 hs1
    have hv0 : 0 ≤ (25599 / 100 : ℚ) * sq c :=
      mul_nonneg (by norm_num) hs0
    have hv1 : (25599 / 100 : ℚ) * sq c ≤ 25599 / 100 :=
      mul_le_of_le_one_right (by norm_num) hs1
    have hfl0 : (0 : ℤ) ≤ ⌊(25599 / 100 : ℚ) * sq c⌋ :=
      Int.le_floor.mpr (by exact_mod_cast hv0)
    have hfl1 : ⌊(25599 / 100 : ℚ) * sq c⌋ ≤ 255 := by
      have hlt : ⌊(25599 / 100 : ℚ) * sq c⌋ < 256 :=
        Int.floor_lt.mpr (by push_cast; linarith)
      omega
    have htr : ratTrunc ((25599 / 100 : ℚ) * sq c) =
        ⌊(25599 / 100 : ℚ) * sq c⌋ := by
      unfold ratTrunc
      rw [if_pos hv0]
    have hq : gammaQuantize sq c = ⌊(25599 / 100 : ℚ) * sq c⌋ := by
      rw [gammaQuantize, ratAsI32, htr,
        min_eq_right (le_trans hfl1 (by norm_num)),
        max_eq_right (le_trans (by norm_num) hfl0)]
    exact ⟨hq, by rw [hq]; exact hfl0, by rw [hq]; exact hfl1⟩

/-- Witness for C9: the pixel at row 0, column 0 of a 2 by 3 image holds
`f 0 2` (top row is the highest `y`), and the channel value `9/16`
(square root `3/4`) quantizes to an integer between 0 and 255. -/
theorem renderer_shape_quantization_witness :
    ((imageCompute 2 3 (fun x y => ⟨(x : ℚ), (y : ℚ), 0⟩)).getD 0 []).getD 0 0 =
      (fun (x y : ℕ) => (⟨(x : ℚ), (y : ℚ), 0⟩ : Vec3)) 0 (3 - 1 - 0) ∧
    (0 ≤ sqDemo (9 / 16) ∧ sqDemo (9 / 16) ≤ 1) ∧
    gammaQuantize sqDemo (9 / 16) = ⌊(25599 / 100 : ℚ) * sqDemo (9 / 16)⌋ ∧
    0 ≤ gammaQuantize sqDemo (9 / 16) ∧ gammaQuantize sqDemo (9 / 16) ≤ 255 :=
  ⟨(renderer_shape_quantization 2 3 (fun x y => ⟨(x : ℚ), (y : ℚ), 0⟩)
      sqDemo).2.2.1 0 (by norm_num) 0 (by norm_num),
    ⟨by norm_num [sqDemo], by norm_num [sqDemo]⟩,
    (renderer_shape_quantization 2 3 (fun x y => ⟨(x : ℚ), (y : ℚ), 0⟩)
      sqDemo).2.2.2.2 (9 / 16) (by norm_num) (by norm_num)
      (by norm_num [sqDemo]) (by norm_num [sqDemo])⟩

end RTIOW
